import Mathlib

/-!
Verification of the Zodic frontend client (src/frontend/src/App.js and the
variant in src/unnamed/part_000) against its natural-language specification.
The two files share the AuthProvider (processAuth, login, logout) and the
Dashboard (fetchData, tabs) verbatim; they differ only in the top-level App
routing component, so both App variants are embedded below.
-/

namespace Zodic

/-! ### JS string primitives used by the source

The source manipulates the URL fragment with the JS methods
String.prototype.includes and String.prototype.split.  JS split cuts the
string at every non-overlapping leftmost occurrence of the separator; the
source only ever reads elements 0 and 1 of the resulting array, so exactly
those two accessors are modelled.
-/

/-- Splits a string at the first occurrence of the pattern: returns
the part strictly before the first occurrence and the part strictly after
it, or nothing when the pattern does not occur. -/
def breakOnOcc (pat : List Char) : List Char → Option (List Char × List Char)
  | [] => none
  | c :: rest =>
    if pat.isPrefixOf (c :: rest) then some ([], (c :: rest).drop pat.length)
    else (breakOnOcc pat rest).map (fun pr => (c :: pr.1, pr.2))

/-- Model of the JS test s.includes(pat): does pat occur as a contiguous
substring of s. -/
def containsSubstr (pat : List Char) : List Char → Bool
  | [] => pat.isPrefixOf []
  | c :: rest => pat.isPrefixOf (c :: rest) || containsSubstr pat rest

/-- Model of s.split(pat)[0] in JS: the part of s before the first
occurrence of pat, or all of s when pat does not occur. -/
def jsSplitAt0 (pat s : List Char) : List Char :=
  match breakOnOcc pat s with
  | none => s
  | some pr => pr.1

/-- Model of s.split(pat)[1] in JS: the segment of s strictly between the
first and the second occurrence of pat (to the end of s when there is no
second occurrence).  When pat does not occur at all, JS yields undefined;
the source only evaluates this under an includes guard, and the value
is modelled as the empty list there. -/
def jsSplitAt1 (pat s : List Char) : List Char :=
  match breakOnOcc pat s with
  | none => []
  | some pr =>
    match breakOnOcc pat pr.2 with
    | none => pr.2
    | some pr2 => pr2.1

/-! ### Requests and network outcomes -/

/-- The HTTP requests the frontend can issue, one constructor per
endpoint appearing in the source. -/
inductive Request where
  | postAuthSession (sessionId : String)
  | getAuthMe
  | postAuthLogout
  | getAnalytics
  | getBots
  | getTrades
  | getPortfolio
  | getMarketStocks
  | getAdminUsers
  deriving DecidableEq, Repr

/-- Outcome of one fetch call: the response arrived with response.ok and a
parsed JSON payload, arrived with response.ok false, or the fetch threw
(network failure). -/
inductive FetchOutcome (α : Type) where
  | ok (payload : α)
  | notOk
  | thrown
  deriving DecidableEq, Repr

/-- True exactly for an ok response. -/
def FetchOutcome.isOk {α : Type} : FetchOutcome α → Bool
  | FetchOutcome.ok _ => true
  | _ => false

/-- True exactly for a thrown fetch. -/
def FetchOutcome.isThrown {α : Type} : FetchOutcome α → Bool
  | FetchOutcome.thrown => true
  | _ => false

/-! ### Auth provider: processAuth, login, logout -/

/-- The user record returned by the backend; the source reads the role,
name and email fields. -/
structure User where
  name : String
  email : String
  role : String
  deriving DecidableEq, Repr

/-- Observable result of one run of processAuth: the user state set by
setUser, the final URL fragment, whether history.replaceState ran, and the
final loading and processingAuth flags. -/
structure AuthResult where
  user : Option User
  hash : String
  historyReplaced : Bool
  loading : Bool
  processingAuth : Bool
  deriving DecidableEq, Repr

/-- The literal pattern session_id= searched for in the URL fragment. -/
def sidPat : List Char := "session_id=".toList

/-- The ampersand character separating fragment parameters. -/
def ampChar : Char := '&'

/-- The literal separator passed to the second split call. -/
def ampPat : List Char := [ampChar]

/-- The token the source computes:
urlFragment.split(session_id=)[1].split(ampersand)[0]. -/
def sessionIdFromHash (hash : String) : String :=
  String.mk (jsSplitAt0 ampPat (jsSplitAt1 sidPat hash.toList))

/-- Embedding of processAuth (App.js lines 17-64): if the fragment
contains session_id= the token is extracted and POSTed to
/api/auth/session; on an ok response the user is set, the fragment is
cleared and history is replaced, on a non-ok response or a thrown fetch
nothing else happens.  Otherwise GET /api/auth/me probes the session
cookie.  The pair returned is the list of requests issued and the final
observable state. -/
def processAuth (hash : String) (exch me : FetchOutcome User) :
    List Request × AuthResult :=
  if containsSubstr sidPat hash.toList then
    let sessionId := sessionIdFromHash hash
    match exch with
    | FetchOutcome.ok u =>
        ([Request.postAuthSession sessionId], ⟨some u, "", true, false, false⟩)
    | FetchOutcome.notOk =>
        ([Request.postAuthSession sessionId], ⟨none, hash, false, false, false⟩)
    | FetchOutcome.thrown =>
        ([Request.postAuthSession sessionId], ⟨none, hash, false, false, false⟩)
  else
    match me with
    | FetchOutcome.ok u => ([Request.getAuthMe], ⟨some u, hash, false, false, false⟩)
    | FetchOutcome.notOk => ([Request.getAuthMe], ⟨none, hash, false, false, false⟩)
    | FetchOutcome.thrown => ([Request.getAuthMe], ⟨none, hash, false, false, false⟩)

/-! ### Basic lemmas about the string primitives -/

lemma contains_of_breakOnOcc (pat s : List Char) (pr : List Char × List Char)
    (h : breakOnOcc pat s = some pr) : containsSubstr pat s = true := by
  induction s generalizing pr with
  | nil => simp [breakOnOcc] at h
  | cons c rest ih =>
    by_cases hp : pat.isPrefixOf (c :: rest) = true
    · simp [containsSubstr, hp]
    · simp only [breakOnOcc, hp, if_false, Bool.false_eq_true, ite_false,
        Option.map_eq_some'] at h
      obtain ⟨pr', hpr', _⟩ := h
      simp [containsSubstr, hp, ih pr' hpr']

lemma breakOnOcc_eq_none_of_not_contains (pat s : List Char)
    (h : containsSubstr pat s = false) : breakOnOcc pat s = none := by
  induction s with
  | nil => simp [breakOnOcc]
  | cons c rest ih =>
    simp only [containsSubstr, Bool.or_eq_false_iff] at h
    simp [breakOnOcc, h.1, ih h.2]

lemma jsSplitAt0_singleton (a : Char) (s : List Char) :
    jsSplitAt0 [a] s = s.takeWhile (fun c => c != a) := by
  induction s with
  | nil => rfl
  | cons c rest ih =>
    by_cases hc : c = a
    · subst hc
      have hpre : ([c]).isPrefixOf (c :: rest) = true := by
        simp [List.isPrefixOf]
      simp [jsSplitAt0, breakOnOcc, hpre, List.takeWhile]
    · have hpre : ([a]).isPrefixOf (c :: rest) = false := by
        simp only [List.isPrefixOf, Bool.and_eq_false_iff]
        left
        simp [beq_eq_false_iff_ne]
        exact fun h => hc h.symm
      have hstep : breakOnOcc [a] (c :: rest)
          = (breakOnOcc [a] rest).map (fun pr => (c :: pr.1, pr.2)) := by
        simp [breakOnOcc, hpre]
      have htw : List.takeWhile (fun x => x != a) (c :: rest)
          = c :: List.takeWhile (fun x => x != a) rest := by
        simp [List.takeWhile_cons, hc]
      cases hb : breakOnOcc [a] rest with
      | none =>
        have ih' : rest = rest.takeWhile (fun x => x != a) := by
          simpa [jsSplitAt0, hb] using ih
        simp only [jsSplitAt0, hstep, hb, Option.map_none', htw]
        rw [← ih']
      | some pr =>
        have ih' : pr.1 = rest.takeWhile (fun x => x != a) := by
          simpa [jsSplitAt0, hb] using ih
        simp only [jsSplitAt0, hstep, hb, Option.map_some', htw]
        rw [← ih']

/-! ### Claim C1 -/

lemma processAuth_trace (hash : String) (exch me : FetchOutcome User) :
    (processAuth hash exch me).1 =
      if containsSubstr sidPat hash.toList then
        [Request.postAuthSession (sessionIdFromHash hash)]
      else [Request.getAuthMe] := by
  by_cases h : containsSubstr sidPat hash.toList = true
  · have h' : containsSubstr sidPat hash.data = true := h
    cases exch <;> simp [processAuth, h, h']
  · simp only [Bool.not_eq_true] at h
    have h' : containsSubstr sidPat hash.data = false := h
    cases me <;> simp [processAuth, h, h']

/-- Claim C1: on every load processAuth performs exactly one of two
mutually exclusive actions: if the fragment contains session_id= it issues
only the POST /api/auth/session exchange (never GET /api/auth/me, whatever
the outcome of the exchange), otherwise it issues only GET /api/auth/me. -/
theorem c1_session_resolver_exclusive (hash : String) (exch me : FetchOutcome User) :
    (processAuth hash exch me).1 =
      if containsSubstr sidPat hash.toList then
        [Request.postAuthSession (sessionIdFromHash hash)]
      else [Request.getAuthMe] :=
  processAuth_trace hash exch me

/-! ### Claim C5

The specification describes the token as the substring of the fragment
between the first occurrence of session_id= and the next ampersand (or the
end of the fragment).  The definition below follows exactly those words of
the specification, to be compared with sessionIdFromHash, which follows
the source. -/

/-- Token as the specification words it: the part of the fragment after
the first occurrence of session_id=, up to the next ampersand or the end
of the fragment. -/
def specTokenBetween (s : List Char) : Option (List Char) :=
  match breakOnOcc sidPat s with
  | none => none
  | some pr => some (pr.2.takeWhile (fun c => c != ampChar))

/-- Claim C5 as stated is false: a second occurrence of session_id=
before the next ampersand truncates the token the source sends.  For the
fragment below the source sends the single character a, while the
substring between the first occurrence of session_id= and the next
ampersand is much longer. -/
theorem c5_counterexample :
    (processAuth "session_id=asession_id=b&c" FetchOutcome.notOk FetchOutcome.notOk).1 =
        [Request.postAuthSession "a"] ∧
    specTokenBetween ("session_id=asession_id=b&c").toList =
        some ("asession_id=b").toList ∧
    ("a" : String) ≠ "asession_id=b" := by
  refine ⟨?_, by decide, by decide⟩
  decide

/-- Claim C5 (amended): when session_id= occurs exactly once in the
fragment, the token sent in the X-Session-ID header is exactly the
substring between that occurrence and the next ampersand (or the end of
the fragment), and exactly one exchange request is issued. -/
theorem c5_amended_token (hash : String) (exch me : FetchOutcome User)
    (pre post : List Char)
    (hocc : breakOnOcc sidPat hash.toList = some (pre, post))
    (honce : containsSubstr sidPat post = false) :
    (processAuth hash exch me).1 =
      [Request.postAuthSession
        (String.mk (post.takeWhile (fun c => c != ampChar)))] ∧
    specTokenBetween hash.toList =
      some (post.takeWhile (fun c => c != ampChar)) := by
  have hcont : containsSubstr sidPat hash.toList = true :=
    contains_of_breakOnOcc sidPat hash.toList (pre, post) hocc
  have hnone : breakOnOcc sidPat post = none :=
    breakOnOcc_eq_none_of_not_contains sidPat post honce
  have hocc' : breakOnOcc sidPat hash.data = some (pre, post) := hocc
  have htok : sessionIdFromHash hash
      = String.mk (post.takeWhile (fun c => c != ampChar)) := by
    have h1 : jsSplitAt1 sidPat hash.data = post := by
      simp [jsSplitAt1, hocc', hnone]
    simp [sessionIdFromHash, String.toList, h1, ampPat, jsSplitAt0_singleton]
  constructor
  · rw [processAuth_trace hash exch me, hcont, htok]
    simp
  · simp [specTokenBetween, hocc, hocc']

/-- Witness for the amended claim C5: a concrete one-occurrence fragment
where the exchange sends exactly the characters up to the ampersand. -/
theorem c5_amended_witness :
    breakOnOcc sidPat ("session_id=tok&next").toList =
        some ([], ("tok&next").toList) ∧
    containsSubstr sidPat ("tok&next").toList = false ∧
    ((processAuth "session_id=tok&next" FetchOutcome.notOk FetchOutcome.notOk).1 =
        [Request.postAuthSession
          (String.mk (("tok&next").toList.takeWhile (fun c => c != ampChar)))] ∧
     specTokenBetween ("session_id=tok&next").toList =
        some (("tok&next").toList.takeWhile (fun c => c != ampChar))) :=
  ⟨by decide, by decide,
    c5_amended_token "session_id=tok&next" FetchOutcome.notOk FetchOutcome.notOk
      [] ("tok&next").toList (by decide) (by decide)⟩

/-! ### Claim C10 -/

/-- Claim C10: the fragment is cleared only after a successful exchange.
When the fragment holds a token but the exchange returns non-ok or
throws, the fragment is unchanged, history is not rewritten and the user
stays null. -/
theorem c10_fragment_kept_on_failure (hash : String) (exch me : FetchOutcome User)
    (hcont : containsSubstr sidPat hash.toList = true)
    (hfail : FetchOutcome.isOk exch = false) :
    (processAuth hash exch me).2.hash = hash ∧
    (processAuth hash exch me).2.historyReplaced = false ∧
    (processAuth hash exch me).2.user = none := by
  have h' : containsSubstr sidPat hash.data = true := hcont
  cases exch with
  | ok u => simp [FetchOutcome.isOk] at hfail
  | notOk => simp [processAuth, hcont, h']
  | thrown => simp [processAuth, hcont, h']

/-- Witness for claim C10 at a concrete fragment and a non-ok exchange. -/
theorem c10_witness :
    containsSubstr sidPat ("#session_id=abc").toList = true ∧
    FetchOutcome.isOk (FetchOutcome.notOk : FetchOutcome User) = false ∧
    ((processAuth "#session_id=abc" FetchOutcome.notOk FetchOutcome.notOk).2.hash =
        "#session_id=abc" ∧
     (processAuth "#session_id=abc" FetchOutcome.notOk FetchOutcome.notOk).2.historyReplaced =
        false ∧
     (processAuth "#session_id=abc" FetchOutcome.notOk FetchOutcome.notOk).2.user = none) :=
  ⟨by decide, by decide,
    c10_fragment_kept_on_failure "#session_id=abc" FetchOutcome.notOk FetchOutcome.notOk
      (by decide) (by decide)⟩

/-! ### Dashboard: fetchData and the tab set

The Dashboard component keeps analytics, bots, trades, portfolio, market
data and the admin user list in component state, initialised to null or
empty.  fetchData issues the six reads sequentially inside one try block;
the payloads are stored unmodified, so they are modelled by an arbitrary
type J of parsed JSON values. -/

/-- Dashboard component state as initialised by useState and updated by
the set calls inside fetchData. -/
structure DashboardState (J : Type) where
  analytics : Option J
  bots : List J
  trades : List J
  portfolio : Option J
  marketData : List (String × J)
  users : List J
  loading : Bool
  deriving DecidableEq, Repr

/-- The useState defaults: null analytics, no bots, no trades, null
portfolio, empty market object, no users, loading true. -/
def initDashboardState (J : Type) : DashboardState J :=
  ⟨none, [], [], none, [], [], true⟩

/-- The network outcome of each of the six reads fetchData can issue. -/
structure DashOutcomes (J : Type) where
  analytics : FetchOutcome J
  bots : FetchOutcome (List J)
  trades : FetchOutcome (List J)
  portfolio : FetchOutcome J
  market : FetchOutcome (List (String × J))
  adminUsers : FetchOutcome (List J)
  deriving DecidableEq, Repr

/-- Accumulator while executing the body of the try block of fetchData:
the requests issued so far, the component state, and whether control is
still inside the try block (live becomes false once a fetch has thrown,
after which the remaining statements are skipped by the catch). -/
structure FetchAcc (J : Type) where
  reqs : List Request
  st : DashboardState J
  live : Bool
  deriving DecidableEq, Repr

/-- One awaited fetch statement inside the try block: if control is live
the request is issued; an ok response stores the payload, a non-ok
response is skipped, a thrown fetch transfers control to the catch. -/
def fetchStep {J α : Type} (req : Request) (out : FetchOutcome α)
    (app : α → DashboardState J → DashboardState J) (acc : FetchAcc J) : FetchAcc J :=
  if acc.live then
    match out with
    | FetchOutcome.ok a => ⟨acc.reqs ++ [req], app a acc.st, true⟩
    | FetchOutcome.notOk => ⟨acc.reqs ++ [req], acc.st, true⟩
    | FetchOutcome.thrown => ⟨acc.reqs ++ [req], acc.st, false⟩
  else acc

/-- The admin test the source performs (user?.role === admin). -/
def userIsAdmin (user : Option User) : Bool :=
  match user with
  | some u => u.role == "admin"
  | none => false

/-- Embedding of fetchData (App.js lines 274-330): six sequential awaited
fetches in one try block, the last conditional on the admin role, with a
finally that clears loading.  Returns the requests actually issued and
the final component state. -/
def fetchData {J : Type} (user : Option User) (o : DashOutcomes J) :
    List Request × DashboardState J :=
  let a0 : FetchAcc J := ⟨[], initDashboardState J, true⟩
  let a1 := fetchStep Request.getAnalytics o.analytics
    (fun a s => { s with analytics := some a }) a0
  let a2 := fetchStep Request.getBots o.bots (fun b s => { s with bots := b }) a1
  let a3 := fetchStep Request.getTrades o.trades (fun t s => { s with trades := t }) a2
  let a4 := fetchStep Request.getPortfolio o.portfolio
    (fun p s => { s with portfolio := some p }) a3
  let a5 := fetchStep Request.getMarketStocks o.market
    (fun m s => { s with marketData := m }) a4
  let a6 := if userIsAdmin user then
      fetchStep Request.getAdminUsers o.adminUsers (fun us s => { s with users := us }) a5
    else a5
  (a6.reqs, { a6.st with loading := false })

/-- The tab list the Dashboard renders (App.js lines 372-374). -/
def dashboardTabs (user : Option User) : List String :=
  if userIsAdmin user then ["overview", "users", "bots", "analytics"]
  else ["overview", "bots", "trades", "portfolio"]

/-! ### The request trace of fetchData -/

/-- Cuts a planned request sequence at the first request whose fetch
throws, keeping that request itself: the trace a sequential try block
produces. -/
def takeThrough : List (Request × Bool) → List Request
  | [] => []
  | (r, b) :: rest => if b then [r] else r :: takeThrough rest

/-- The requests fetchData would attempt in order, each paired with
whether its fetch throws. -/
def plannedRequests {J : Type} (isAdmin : Bool) (o : DashOutcomes J) :
    List (Request × Bool) :=
  [(Request.getAnalytics, FetchOutcome.isThrown o.analytics),
   (Request.getBots, FetchOutcome.isThrown o.bots),
   (Request.getTrades, FetchOutcome.isThrown o.trades),
   (Request.getPortfolio, FetchOutcome.isThrown o.portfolio),
   (Request.getMarketStocks, FetchOutcome.isThrown o.market)] ++
  (if isAdmin then [(Request.getAdminUsers, FetchOutcome.isThrown o.adminUsers)] else [])

lemma fetchStep_reqs {J α : Type} (req : Request) (out : FetchOutcome α)
    (app : α → DashboardState J → DashboardState J) (acc : FetchAcc J) :
    (fetchStep req out app acc).reqs =
      if acc.live then acc.reqs ++ [req] else acc.reqs := by
  obtain ⟨reqs, st, live⟩ := acc
  cases live <;> cases out <;> rfl

lemma fetchStep_live {J α : Type} (req : Request) (out : FetchOutcome α)
    (app : α → DashboardState J → DashboardState J) (acc : FetchAcc J) :
    (fetchStep req out app acc).live = (acc.live && !(FetchOutcome.isThrown out)) := by
  obtain ⟨reqs, st, live⟩ := acc
  cases live <;> cases out <;> rfl

lemma fetchStep_st_of_not_ok {J α : Type} (req : Request) (out : FetchOutcome α)
    (app : α → DashboardState J → DashboardState J) (acc : FetchAcc J)
    (h : FetchOutcome.isOk out = false) :
    (fetchStep req out app acc).st = acc.st := by
  obtain ⟨reqs, st, live⟩ := acc
  cases out with
  | ok a => simp [FetchOutcome.isOk] at h
  | notOk => cases live <;> rfl
  | thrown => cases live <;> rfl

lemma fetchData_reqs {J : Type} (user : Option User) (o : DashOutcomes J) :
    (fetchData user o).1 = takeThrough (plannedRequests (userIsAdmin user) o) := by
  obtain ⟨oa, ob, ot, op, om, ou⟩ := o
  cases hAdm : userIsAdmin user <;>
  cases hA : FetchOutcome.isThrown oa <;>
  cases hB : FetchOutcome.isThrown ob <;>
  cases hT : FetchOutcome.isThrown ot <;>
  cases hP : FetchOutcome.isThrown op <;>
  cases hM : FetchOutcome.isThrown om <;>
    simp [fetchData, fetchStep_reqs, fetchStep_live, plannedRequests, takeThrough,
      hAdm, hA, hB, hT, hP, hM]

lemma fetchData_nodup {J : Type} (user : Option User) (o : DashOutcomes J) :
    List.Nodup (fetchData user o).1 := by
  rw [fetchData_reqs]
  obtain ⟨oa, ob, ot, op, om, ou⟩ := o
  cases hAdm : userIsAdmin user <;>
  cases hA : FetchOutcome.isThrown oa <;>
  cases hB : FetchOutcome.isThrown ob <;>
  cases hT : FetchOutcome.isThrown ot <;>
  cases hP : FetchOutcome.isThrown op <;>
  cases hM : FetchOutcome.isThrown om <;>
  cases hU : FetchOutcome.isThrown ou <;>
    simp [plannedRequests, takeThrough, hAdm, hA, hB, hT, hP, hM, hU]

/-! ### Claims C3, C4, C7 -/

/-- A batch in which the very first read (analytics) throws and every
other read would answer with a non-ok response. -/
def firstThrownOutcomes : DashOutcomes Nat :=
  ⟨FetchOutcome.thrown, FetchOutcome.notOk, FetchOutcome.notOk,
   FetchOutcome.notOk, FetchOutcome.notOk, FetchOutcome.notOk⟩

/-- A batch in which every read answers with a non-ok response and none
throws. -/
def noOkOutcomes : DashOutcomes Nat :=
  ⟨FetchOutcome.notOk, FetchOutcome.notOk, FetchOutcome.notOk,
   FetchOutcome.notOk, FetchOutcome.notOk, FetchOutcome.notOk⟩

/-- A user whose role field is admin. -/
def adminUser : User := ⟨"Admin", "a@example.com", "admin"⟩

/-- A user whose role field is not admin. -/
def traderUser : User := ⟨"Trader", "t@example.com", "user"⟩

/-- Claim C3 is false as stated: the reads are not independent.  When the
analytics fetch throws, control jumps to the catch and the bots request
(like every later request) is never issued. -/
theorem c3_counterexample :
    (fetchData none firstThrownOutcomes).1 = [Request.getAnalytics] ∧
    Request.getBots ∉ (fetchData none firstThrownOutcomes).1 := by
  refine ⟨?_, ?_⟩ <;> decide

/-- Claim C3 (amended): the batch is issued sequentially inside a single
try block; each request is issued exactly when no earlier request of the
batch threw, so the first thrown fetch also ends the batch while non-ok
responses do not.  The trace equals the planned request order cut at the
first thrown fetch, inclusive. -/
theorem c3_sequential_batch (J : Type) (user : Option User) (o : DashOutcomes J) :
    (fetchData user o).1 = takeThrough (plannedRequests (userIsAdmin user) o) :=
  fetchData_reqs user o

lemma fetchData_st_all_fail {J : Type} (user : Option User) (o : DashOutcomes J)
    (h1 : FetchOutcome.isOk o.analytics = false)
    (h2 : FetchOutcome.isOk o.bots = false)
    (h3 : FetchOutcome.isOk o.trades = false)
    (h4 : FetchOutcome.isOk o.portfolio = false)
    (h5 : FetchOutcome.isOk o.market = false)
    (h6 : FetchOutcome.isOk o.adminUsers = false) :
    (fetchData user o).2 = ⟨none, [], [], none, [], [], false⟩ := by
  obtain ⟨oa, ob, ot, op, om, ou⟩ := o
  cases hAdm : userIsAdmin user <;>
    simp [fetchData, hAdm, fetchStep_st_of_not_ok, h1, h2, h3, h4, h5, h6,
      initDashboardState]

/-- Claim C4: when every read fails or returns non-ok, the dashboard
state keeps all its defaults (null analytics, no bots, no trades, null
portfolio, empty market data, no users) and no request of the batch is
issued twice. -/
theorem c4_defaults_on_total_failure (J : Type) (user : Option User)
    (o : DashOutcomes J)
    (h1 : FetchOutcome.isOk o.analytics = false)
    (h2 : FetchOutcome.isOk o.bots = false)
    (h3 : FetchOutcome.isOk o.trades = false)
    (h4 : FetchOutcome.isOk o.portfolio = false)
    (h5 : FetchOutcome.isOk o.market = false)
    (h6 : FetchOutcome.isOk o.adminUsers = false) :
    (fetchData user o).2 = ⟨none, [], [], none, [], [], false⟩ ∧
    List.Nodup (fetchData user o).1 :=
  ⟨fetchData_st_all_fail user o h1 h2 h3 h4 h5 h6, fetchData_nodup user o⟩

/-- Witness for claim C4: a concrete load where all six reads answer
non-ok leaves the defaults untouched. -/
theorem c4_defaults_witness :
    FetchOutcome.isOk noOkOutcomes.analytics = false ∧
    FetchOutcome.isOk noOkOutcomes.bots = false ∧
    FetchOutcome.isOk noOkOutcomes.trades = false ∧
    FetchOutcome.isOk noOkOutcomes.portfolio = false ∧
    FetchOutcome.isOk noOkOutcomes.market = false ∧
    FetchOutcome.isOk noOkOutcomes.adminUsers = false ∧
    ((fetchData (some traderUser) noOkOutcomes).2 = ⟨none, [], [], none, [], [], false⟩ ∧
     List.Nodup (fetchData (some traderUser) noOkOutcomes).1) :=
  ⟨by decide, by decide, by decide, by decide, by decide, by decide,
    c4_defaults_on_total_failure Nat (some traderUser) noOkOutcomes
      (by decide) (by decide) (by decide) (by decide) (by decide) (by decide)⟩

/-- Claim C7 is false as stated: for an admin user whose analytics fetch
throws, the batch never reaches the admin user list, so no request to
/api/admin/users is issued although the role is admin. -/
theorem c7_counterexample :
    adminUser.role = "admin" ∧
    Request.getAdminUsers ∉ (fetchData (some adminUser) firstThrownOutcomes).1 := by
  refine ⟨?_, ?_⟩ <;> decide

/-- Claim C7 (amended): GET /api/admin/users is issued exactly when the
resolved role is admin and none of the five earlier reads of the batch
threw; in particular it is never issued for a non-admin user. -/
theorem c7_admin_fetch_iff (J : Type) (user : Option User) (o : DashOutcomes J) :
    Request.getAdminUsers ∈ (fetchData user o).1 ↔
      (userIsAdmin user = true ∧
       FetchOutcome.isThrown o.analytics = false ∧
       FetchOutcome.isThrown o.bots = false ∧
       FetchOutcome.isThrown o.trades = false ∧
       FetchOutcome.isThrown o.portfolio = false ∧
       FetchOutcome.isThrown o.market = false) := by
  rw [fetchData_reqs]
  obtain ⟨oa, ob, ot, op, om, ou⟩ := o
  cases hAdm : userIsAdmin user <;>
  cases hA : FetchOutcome.isThrown oa <;>
  cases hB : FetchOutcome.isThrown ob <;>
  cases hT : FetchOutcome.isThrown ot <;>
  cases hP : FetchOutcome.isThrown op <;>
  cases hM : FetchOutcome.isThrown om <;>
  cases hU : FetchOutcome.isThrown ou <;>
    simp [plannedRequests, takeThrough, hAdm, hA, hB, hT, hP, hM, hU]

/-! ### Claim C6 -/

/-- Claim C6: for every resolved user the tab set is overview, users,
bots, analytics when the role is admin and overview, bots, trades,
portfolio otherwise, and the two tab sets differ. -/
theorem c6_tabs (u : User) :
    dashboardTabs (some u) =
      (if u.role == "admin" then ["overview", "users", "bots", "analytics"]
       else ["overview", "bots", "trades", "portfolio"]) ∧
    (["overview", "users", "bots", "analytics"] : List String) ≠
      ["overview", "bots", "trades", "portfolio"] :=
  ⟨rfl, by decide⟩

/-! ### App routing

App.js (lines 745-766) chooses a view from the resolved user, the loading
flags and the current pathname, and may assign window.location.href.  The
variant in part_000 (lines 1279-1327) instead keeps a currentPage state,
pushes /dashboard onto the history for a resolved user and renders from
currentPage. -/

/-- The views the top-level components can render. -/
inductive Page where
  | spinner
  | landing
  | dashboard
  | authForm
  deriving DecidableEq, Repr

/-- Embedding of the App component of App.js: the page rendered and the
navigation target assigned to window.location.href, if any. -/
def appRender (user : Option User) (loading processingAuth : Bool)
    (pathname : String) : Page × Option String :=
  if loading || processingAuth then (Page.spinner, none)
  else
    let isOnDashboard : Bool := pathname == "/dashboard" || user.isSome
    if user.isSome && !isOnDashboard then (Page.spinner, some "/dashboard")
    else if user.isSome then (Page.dashboard, none)
    else (Page.landing, none)

/-- Embedding of the routing effect of the App variant in part_000: maps
the pathname and user to the currentPage state. -/
def routeFromPath (pathname : String) (user : Option User) : String :=
  if pathname == "/dashboard" || (user.isSome && pathname == "/") then "dashboard"
  else if pathname == "/login" || pathname == "/signup" then "auth"
  else "home"

/-- Embedding of the redirect effect of the App variant in part_000: for
a resolved user not already on the dashboard page it sets currentPage to
dashboard and pushes /dashboard onto the history.  Returns the new
currentPage and the pushed path, if any. -/
def redirectEffect (user : Option User) (currentPage : String) :
    String × Option String :=
  if user.isSome && currentPage != "dashboard" then ("dashboard", some "/dashboard")
  else (currentPage, none)

/-- Embedding of renderPage of the App variant in part_000. -/
def renderPage (user : Option User) (currentPage : String) : Page :=
  if user.isSome then Page.dashboard
  else if currentPage == "dashboard" then Page.landing
  else if currentPage == "auth" then Page.authForm
  else Page.landing

/-! ### Claim C2 -/

/-- Claim C2 fails on App.js: the guard of the redirect branch is
user and not (pathname equals /dashboard or user), which is identically
false, so App.js never assigns window.location.href; with a resolved user
on the root path it renders the dashboard while the URL stays at the root
path.  The variant in part_000 does perform the navigation: its redirect
effect moves currentPage to dashboard and pushes /dashboard, and its
renderPage shows the dashboard for every resolved user. -/
theorem c2_app_eval :
    (∀ (user : Option User) (loading processingAuth : Bool) (pathname : String),
      (appRender user loading processingAuth pathname).2 = none) ∧
    appRender (some traderUser) false false "/" = (Page.dashboard, none) ∧
    redirectEffect (some traderUser) (routeFromPath "/pricing" (some traderUser)) =
      ("dashboard", some "/dashboard") ∧
    renderPage (some traderUser) "dashboard" = Page.dashboard := by
  refine ⟨?_, by decide, by decide, by decide⟩
  intro user loading processingAuth pathname
  cases user <;> cases loading <;> cases processingAuth <;>
    simp [appRender]

/-! ### login and encodeURIComponent

login builds the external identity URL from the current origin with the
JS encodeURIComponent, which percent-encodes the UTF-8 bytes of every
character outside its unreserved set using uppercase hexadecimal. -/

/-- The characters encodeURIComponent leaves unescaped: ASCII letters and
digits and minus, underscore, dot, exclamation mark, tilde, asterisk,
apostrophe and the two parentheses. -/
def isUnreservedChar (c : Char) : Bool :=
  c.isAlpha || c.isDigit || c == '-' || c == '_' || c == '.' || c == '!' ||
    c == '~' || c == '*' || c == Char.ofNat 39 || c == '(' || c == ')'

/-- Uppercase hexadecimal digit for a value below sixteen. -/
def hexDigit (n : Nat) : Char :=
  if n < 10 then Char.ofNat (48 + n) else Char.ofNat (55 + n)

/-- The UTF-8 bytes of a character, as natural numbers. -/
def utf8ByteList (c : Char) : List Nat :=
  let n := c.toNat
  if n < 128 then [n]
  else if n < 2048 then [192 + n / 64, 128 + n % 64]
  else if n < 65536 then [224 + n / 4096, 128 + n / 64 % 64, 128 + n % 64]
  else [240 + n / 262144, 128 + n / 4096 % 64, 128 + n / 64 % 64, 128 + n % 64]

/-- Percent-encoding of one byte. -/
def percentEncodeByte (b : Nat) : String :=
  String.mk ['%', hexDigit (b / 16), hexDigit (b % 16)]

/-- Model of the JS global encodeURIComponent. -/
def encodeURIComponent (s : String) : String :=
  String.join (s.toList.map (fun c =>
    if isUnreservedChar c then String.singleton c
    else String.join ((utf8ByteList c).map percentEncodeByte)))

/-- Browser location state seen by login: the origin and the href it may
assign. -/
structure BrowserState where
  origin : String
  href : String
  deriving DecidableEq, Repr

/-- The URL login builds (App.js lines 69-72). -/
def loginUrl (origin : String) : String :=
  "https://auth.emergentagent.com/?redirect=" ++
    encodeURIComponent (origin ++ "/dashboard")

/-- Embedding of login: assigns the external identity URL to
window.location.href. -/
def login (b : BrowserState) : BrowserState :=
  ⟨b.origin, loginUrl b.origin⟩

/-! ### Claim C8 -/

/-- Claim C8: every invocation of login navigates to the external
identity provider URL followed by the URL-encoded return address, the
current origin concatenated with /dashboard; for a concrete https origin
the encoding yields the expected percent-escaped URL. -/
theorem c8_login :
    (∀ b : BrowserState,
      (login b).href =
        "https://auth.emergentagent.com/?redirect=" ++
          encodeURIComponent (b.origin ++ "/dashboard")) ∧
    (login ⟨"https://app.example.com", ""⟩).href =
      "https://auth.emergentagent.com/?redirect=https%3A%2F%2Fapp.example.com%2Fdashboard" :=
  ⟨fun _ => rfl, by decide⟩

/-! ### logout and claim C9 -/

/-- Embedding of logout (App.js lines 74-84): the POST /api/auth/logout
request is always issued; setUser(null) runs only when the awaited fetch
does not throw (the source never reads response.ok here), while a thrown
fetch leaves the user state untouched.  Returns the requests issued and
the resulting user state. -/
def logout (user : Option User) (out : FetchOutcome Unit) :
    List Request × Option User :=
  match out with
  | FetchOutcome.thrown => ([Request.postAuthLogout], user)
  | _ => ([Request.postAuthLogout], none)

/-- Claim C9: logout clears the user exactly when the request completes
without throwing (also on a non-ok response); when the fetch throws the
user state is unchanged, so the caller still appears authenticated
exactly when it was before. -/
theorem c9_logout (user : Option User) (out : FetchOutcome Unit) :
    (logout user out).1 = [Request.postAuthLogout] ∧
    (logout user out).2 = (if FetchOutcome.isThrown out then user else none) ∧
    (logout user out).2.isSome = (FetchOutcome.isThrown out && user.isSome) := by
  cases out <;> cases user <;> simp [logout, FetchOutcome.isThrown]

end Zodic
